import Mathlib

/-!
Verification of the circular genome viewer's core algorithms against its
natural-language specification.  JavaScript numbers are embedded as exact
rationals (`ℚ`); the double-precision constant `Math.PI` is embedded as the
exact rational value of that double.  Side-effecting methods are embedded as
pure state-transformer functions over explicit state records.
-/

namespace GffViewer

/-- Exact rational value of the IEEE-754 double `Math.PI`
(`884279719003555 / 2^48`). -/
def piQ : ℚ := 884279719003555 / 281474976710656

/-- Strand of a feature: one of the strings `+`, `-`, `.`
(`Strand` in `types/core.ts`). -/
inductive Strand where
  | plus
  | minus
  | dot
deriving DecidableEq, Repr

/-- A genomic feature (`Feature` in `types/core.ts` / `data/models/feature.ts`).
`name` and `sequenceId` are optional in the source; `attributes` is a
string-keyed map, kept here as an association list in insertion order. -/
structure Feature where
  id : String
  name : Option String
  type : String
  start : ℚ
  «end» : ℚ
  strand : Strand
  attributes : List (String × String)
  sequenceId : Option String
deriving DecidableEq, Repr

/-- Interval-tree node (`IntervalNode` in the spatial-index module):
an augmented binary node holding one feature plus the cached `min`/`max`
fields; `leaf` embeds the `null` child pointer. -/
inductive ITree where
  | leaf
  | node (feature : Feature) (left right : ITree) (min max : ℚ)
deriving DecidableEq, Repr

namespace ITree

/-- `IntervalNode.getCenter`: `(feature.start + feature.end) / 2`. -/
def center (f : Feature) : ℚ := (f.start + f.«end») / 2

/-- Cached `max` of a node (only read on non-null nodes in the source). -/
def maxOf : ITree → ℚ
  | leaf => 0
  | node _ _ _ _ mx => mx

/-- Cached `min` of a node (only read on non-null nodes in the source). -/
def minOf : ITree → ℚ
  | leaf => 0
  | node _ _ _ mn _ => mn

/-- `IntervalNode.updateMax`: recompute this node's `max` from
`feature.end` and the children's cached `max` values.  Note the source
never updates `min`. -/
def updateMax : ITree → ITree
  | leaf => leaf
  | node f l r mn _ =>
      let m1 := f.«end»
      let m2 := match l with
        | leaf => m1
        | node _ _ _ _ lmax => if lmax > m1 then lmax else m1
      let m3 := match r with
        | leaf => m2
        | node _ _ _ _ rmax => if rmax > m2 then rmax else m2
      node f l r mn m3

/-- `IntervalTree.insertNode`: BST insert keyed by interval center, then
`updateMax` on the way up.  A fresh node caches `min := feature.start`,
`max := feature.end`. -/
def insertNode : ITree → Feature → ITree
  | leaf, f => node f leaf leaf f.start f.«end»
  | node nf l r mn mx, f =>
      if center f < center nf then
        updateMax (node nf (insertNode l f) r mn mx)
      else
        updateMax (node nf l (insertNode r f) mn mx)

/-- `IntervalTree.intersects`: `feature.end >= start && feature.start <= end`. -/
def intersects (f : Feature) (start «end» : ℚ) : Bool :=
  f.«end» ≥ start && f.start ≤ «end»

/-- `IntervalTree.queryNode`: visit the node, descend left when
`left.max >= start`, descend right when `right.min <= end`. -/
def queryNode : ITree → ℚ → ℚ → List Feature → List Feature
  | leaf, _, _, results => results
  | node f l r _ _, start, «end», results =>
      let results := if intersects f start «end» then results ++ [f] else results
      let results := match l with
        | leaf => results
        | node lf ll lr lmn lmx =>
            if lmx ≥ start then queryNode (node lf ll lr lmn lmx) start «end» results
            else results
      match r with
      | leaf => results
      | node rf rl rr rmn rmx =>
          if rmn ≤ «end» then queryNode (node rf rl rr rmn rmx) start «end» results
          else results

/-- `IntervalTree.insert` for a whole sequence of features, starting from the
empty tree (`root = null`). -/
def insertAll (fs : List Feature) : ITree :=
  fs.foldl insertNode leaf

/-- `IntervalTree.query(start, end)` over the tree built from `fs`. -/
def query (t : ITree) (start «end» : ℚ) : List Feature :=
  queryNode t start «end» []

end ITree

/-- The set of features the spec says `query(a,b)` must return:
`{f : f.end >= a ∧ f.start <= b}` over the inserted features. -/
def specQuery (fs : List Feature) (a b : ℚ) : List Feature :=
  fs.filter (fun f => f.«end» ≥ a && f.start ≤ b)

/-- Shorthand for building plain features used in concrete runs. -/
def mkF (id : String) (s e : ℚ) : Feature :=
  ⟨id, none, "gene", s, e, Strand.plus, [], none⟩

/-! ### Label placement (`utils` module of the circular renderer) -/

/-- An angular interval reserved by an accepted label
(`{ start, end }` entries of `renderedLabelAngles`). -/
structure AngleInterval where
  start : ℚ
  «end» : ℚ
deriving DecidableEq, Repr

/-- `checkAngleCollision(currentStart, currentEnd, labelStart, labelEnd)`:
overlap of the current interval with an accepted one, also retried with the
current interval shifted by `+2π` (and only by `+2π`). -/
def checkAngleCollision (currentStart currentEnd labelStart labelEnd : ℚ) : Bool :=
  (currentStart < labelEnd && currentEnd > labelStart) ||
  (currentStart + 2 * piQ < labelEnd && currentEnd + 2 * piQ > labelStart)

/-- The label interval `canRenderLabel` computes for a feature: width
`labelAngleWidth` centred on the feature's angular midpoint. -/
def labelInterval (f : Feature) (genomeLength labelAngleWidth : ℚ) : AngleInterval :=
  let featureStartAngle := f.start / genomeLength * piQ * 2
  let featureEndAngle := f.«end» / genomeLength * piQ * 2
  let featureCenterAngle := (featureStartAngle + featureEndAngle) / 2
  ⟨featureCenterAngle - labelAngleWidth / 2, featureCenterAngle + labelAngleWidth / 2⟩

/-- `canRenderLabel(feature, genomeLength, renderedLabelAngles, labelAngleWidth)`:
returns whether the label is accepted together with the updated
`renderedLabelAngles` list (the source mutates the list in place). -/
def canRenderLabel (f : Feature) (genomeLength : ℚ)
    (renderedLabelAngles : List AngleInterval) (labelAngleWidth : ℚ) :
    Bool × List AngleInterval :=
  let i := labelInterval f genomeLength labelAngleWidth
  let isCollision := renderedLabelAngles.any fun label =>
    checkAngleCollision i.start i.«end» label.start label.«end»
  if !isCollision then (true, renderedLabelAngles ++ [i])
  else (false, renderedLabelAngles)

/-- A run of the label-placement pass: every candidate feature is pushed
through `canRenderLabel` against the shared `renderedLabelAngles` list, in
order (as `LabelRenderer.renderCanvasLabels` / `renderSvgLabels` do). -/
def processLabels (genomeLength labelAngleWidth : ℚ) (fs : List Feature) :
    List AngleInterval :=
  fs.foldl (fun acc f => (canRenderLabel f genomeLength acc labelAngleWidth).2) []

/-- Collision-freedom that acceptance records: the later-accepted interval `l`
does not collide with the earlier-accepted interval `e` under
`checkAngleCollision` (unshifted, or with `l` shifted by `+2π`). -/
def NoCollide (e l : AngleInterval) : Prop :=
  checkAngleCollision l.start l.«end» e.start e.«end» = false

/-! ### LOD manager (`utils/lod-manager.ts`) -/

/-- One LOD bucket (`LODLevel`).  `maxZoom := none` embeds the JavaScript
`Infinity` sentinel of the last bucket. -/
structure LODLevel where
  minZoom : ℚ
  maxZoom : Option ℚ
  detailLevel : ℕ
  showLabels : Bool
  showFeatures : Bool
  featureDensity : ℚ
deriving DecidableEq, Repr

/-- `zoomLevel < level.maxZoom`, with `none` playing `Infinity` (every finite
zoom is below it). -/
def ltMaxZoom (zoomLevel : ℚ) (maxZoom : Option ℚ) : Bool :=
  match maxZoom with
  | some v => zoomLevel < v
  | none => true

/-- Whether a bucket matches: `zoomLevel >= level.minZoom && zoomLevel < level.maxZoom`. -/
def lodMatches (zoomLevel : ℚ) (level : LODLevel) : Bool :=
  level.minZoom ≤ zoomLevel && ltMaxZoom zoomLevel level.maxZoom

/-- The default six-bucket table installed by the `LODManager` constructor
(and restored verbatim by `resetLODLevels`). -/
def defaultLODLevels : List LODLevel :=
  [⟨0, some (1/10), 1, false, true, 1/100⟩,
   ⟨1/10, some (1/2), 2, false, true, 1/20⟩,
   ⟨1/2, some 1, 3, true, true, 1/10⟩,
   ⟨1, some 2, 4, true, true, 1/2⟩,
   ⟨2, some 5, 5, true, true, 1⟩,
   ⟨5, none, 6, true, true, 2⟩]

/-- `LODManager.getLOD(zoomLevel)`: the first bucket with
`minZoom <= zoom < maxZoom`, else the last bucket of the table
(`none` if the table is empty, which the class never produces). -/
def getLOD (levels : List LODLevel) (zoomLevel : ℚ) : Option LODLevel :=
  match levels.find? (lodMatches zoomLevel) with
  | some level => some level
  | none => levels.getLast?

/-! ### Zoom/pan controller (`renderer/circular/zoom-pan-controller.ts`) -/

/-- A 2D point / offset (`{ x, y }`). -/
structure Vec2 where
  x : ℚ
  y : ℚ
deriving DecidableEq, Repr

/-- The canvas scene: the `circleContainer` (first stage child, carrying the
grid/feature/label/scale layers) and the separate legend container. -/
structure CanvasScene where
  circlePos : Vec2
  circleScale : ℚ
  legendPos : Vec2
deriving DecidableEq, Repr

/-- A parsed SVG group transform `translate(x,y) [scale(s)]`; `scale := none`
when the transform string carries no `scale(...)` part. -/
structure SvgTransform where
  translate : Vec2
  scale : Option ℚ
deriving DecidableEq, Repr

/-- `ZoomPanController.setCanvasZoomLevel(level, point, stage)` with an anchor
point and an existing `stage.children[0]`: world coordinate under the point is
computed at the previous zoom, and the container is moved so the same world
point stays under the cursor; returns the new scene and the new `zoomLevel`
field. -/
def setCanvasZoomLevel (zoomLevel level : ℚ) (point : Vec2) (scene : CanvasScene) :
    CanvasScene × ℚ :=
  let prevScale := zoomLevel
  let newScale := level
  let containerX := point.x - scene.circlePos.x
  let containerY := point.y - scene.circlePos.y
  let worldX := containerX / prevScale
  let worldY := containerY / prevScale
  let newContainerX := point.x - worldX * newScale
  let newContainerY := point.y - worldY * newScale
  ({ scene with circleScale := newScale, circlePos := ⟨newContainerX, newContainerY⟩ }, level)

/-- `ZoomPanController.setSvgZoomLevel(level, point, svgContainer)` with an
anchor point, applied to one of the four scene groups: `scaleFactor` is
`level / this.zoomLevel`, and the group is re-translated so the anchor stays
fixed; the new transform is `translate(newX,newY) scale(level)`. -/
def setSvgZoomLevel (zoomLevel level : ℚ) (point : Vec2) (t : SvgTransform) :
    SvgTransform :=
  let scaleFactor := level / zoomLevel
  let currentX := t.translate.x
  let currentY := t.translate.y
  let newX := point.x - (point.x - currentX) * scaleFactor
  let newY := point.y - (point.y - currentY) * scaleFactor
  ⟨⟨newX, newY⟩, some level⟩

/-- World coordinate under a screen point for a group at position `groupPos`
drawn at scale `scale`: `(point - groupPos) / scale`. -/
def worldUnder (point groupPos : Vec2) (scale : ℚ) : Vec2 :=
  ⟨(point.x - groupPos.x) / scale, (point.y - groupPos.y) / scale⟩

/-- The full render scene `setPanOffset` acts on: the canvas stage (with its
`circleContainer` first child and legend container) and the SVG groups
(`gridContainer`, `featureContainer`, `labelContainer`, `scaleContainer`,
plus the excluded `legendContainer`). -/
structure RenderScene where
  stageHasCircle : Bool
  circlePos : Vec2
  canvasLegendPos : Vec2
  hasSvg : Bool
  gridT : SvgTransform
  featT : SvgTransform
  labelT : SvgTransform
  scaleT : SvgTransform
  legendT : SvgTransform
deriving DecidableEq, Repr

/-- The SVG branch of `setPanOffset` on one scene group: the translate parsed
from the transform gets the offset added, and the transform is rewritten as
`translate(x,y)` (any `scale(...)` part is dropped). -/
def panSvgGroup (offset : Vec2) (t : SvgTransform) : SvgTransform :=
  ⟨⟨t.translate.x + offset.x, t.translate.y + offset.y⟩, none⟩

/-- `ZoomPanController.setPanOffset(offset, stage, svgContainer, rendererType)`:
canvas pans `stage.children[0]` by adding the offset to its position; SVG pans
the four scene groups; the legend containers are never touched. -/
def setPanOffset (offset : Vec2) (rendererType : String) (sc : RenderScene) :
    RenderScene :=
  if rendererType = "canvas" then
    if sc.stageHasCircle then
      { sc with circlePos := ⟨sc.circlePos.x + offset.x, sc.circlePos.y + offset.y⟩ }
    else sc
  else if rendererType = "svg" && sc.hasSvg then
    { sc with
        gridT := panSvgGroup offset sc.gridT,
        featT := panSvgGroup offset sc.featT,
        labelT := panSvgGroup offset sc.labelT,
        scaleT := panSvgGroup offset sc.scaleT }
  else sc

/-! ### Feature model (`data/models/feature.ts`) -/

/-- The partial data the `Feature` constructor and `toJSON` exchange
(`Partial<FeatureType>` / the plain `FeatureType` object). -/
structure FeatureData where
  id : Option String
  name : Option String
  type : Option String
  start : Option ℚ
  «end» : Option ℚ
  strand : Option Strand
  attributes : Option (List (String × String))
  sequenceId : Option String
deriving DecidableEq, Repr

/-- JavaScript `v || dflt` for an optional string: `undefined` and the empty
string are falsy. -/
def orElseStr (v : Option String) (dflt : String) : String :=
  match v with
  | some s => if s = "" then dflt else s
  | none => dflt

/-- JavaScript `v || 0` for an optional number: `undefined` and `0` are falsy. -/
def orElseNum (v : Option ℚ) : ℚ :=
  match v with
  | some q => if q = 0 then 0 else q
  | none => 0

/-- The `Feature` class constructor: defaults (`id`, `type 'CDS'`,
`start/end 0`, `strand '.'`, empty attributes) and the swap that enforces
`start <= end`.  `freshId` stands for the impure `generateId()` result, which
always has the non-empty shape `feature_<time>_<rand>`. -/
def mkFeature (freshId : String) (d : FeatureData) : Feature :=
  let id := orElseStr d.id freshId
  let name := d.name
  let type := orElseStr d.type "CDS"
  let start := orElseNum d.start
  let done := orElseNum d.«end»
  let strand := d.strand.getD Strand.dot
  let attributes := d.attributes.getD []
  let sequenceId := d.sequenceId
  if start > done then
    ⟨id, name, type, done, start, strand, attributes, sequenceId⟩
  else
    ⟨id, name, type, start, done, strand, attributes, sequenceId⟩

/-- `Feature.toJSON()`: every field copied out (attributes shallow-copied). -/
def Feature.toJSON (f : Feature) : FeatureData :=
  ⟨some f.id, f.name, some f.type, some f.start, some f.«end», some f.strand,
    some f.attributes, f.sequenceId⟩

/-- `Feature.fromJSON(data)`: `new Feature(data)`. -/
def Feature.fromJSON (freshId : String) (d : FeatureData) : Feature :=
  mkFeature freshId d

/-- A concrete scene used to instantiate the pan theorem. -/
def panWitnessScene : RenderScene :=
  ⟨true, ⟨10, 20⟩, ⟨700, 50⟩, true, ⟨⟨1, 2⟩, some 1⟩, ⟨⟨3, 4⟩, none⟩,
    ⟨⟨5, 6⟩, some 2⟩, ⟨⟨7, 8⟩, none⟩, ⟨⟨9, 10⟩, some 1⟩⟩

/-- A concrete feature payload used to instantiate the round-trip theorem. -/
def rtWitnessData : FeatureData :=
  ⟨some "gene42", some "dnaA", some "CDS", some 100, some 200, some Strand.plus,
    some [("product", "replication initiator")], some "chr1"⟩

/-! ### Renderer configuration (`renderer/circular/config`) -/

/-- Modelled from the spec: the renderer configuration module (the `config`
file exporting `RENDER_CONFIG`) is not among the provided sources — only its
call sites are.  The constant names are those read at the call sites; the
spec fixes no numeric values for the angle constants, so they stay abstract
parameters here. -/
structure RenderConfig where
  MIN_ANGLE_WIDTH : ℚ
  MIN_GAP_ANGLE : ℚ
  MAX_GAP_ANGLE : ℚ
  GAP_ANGLE_RATIO : ℚ
  MIN_TRACK_HEIGHT : ℚ
  MAX_TRACK_HEIGHT : ℚ
  TRACK_SPACING : ℚ
deriving DecidableEq, Repr

/-- Modelled from the spec: a concrete representative configuration.  The
track constants 15/30/5 are the values the hit-testing and label-placement
code inline for the same quantities; the angle constants are representative
positive values — the spec says the gap exists "to create visual separation
between adjacent features", so `MIN_GAP_ANGLE` is positive. -/
def specConfig : RenderConfig :=
  ⟨1/100, 1/500, 1/100, 1/10, 15, 30, 5⟩

/-! ### Per-feature angular span (`FeatureRenderer.renderCanvasFeature` /
`renderSvgFeature`, identical angle math) -/

/-- Base angles of a feature: `(start/genomeLength)·π·2` and likewise for
`end`. -/
def baseAngles (f : Feature) (genomeLength : ℚ) : ℚ × ℚ :=
  (f.start / genomeLength * piQ * 2, f.«end» / genomeLength * piQ * 2)

/-- The min-width adjustment: when the base span is below `MIN_ANGLE_WIDTH`,
re-centre on the midpoint and widen to exactly `MIN_ANGLE_WIDTH`. -/
def widenedAngles (cfg : RenderConfig) (f : Feature) (genomeLength : ℚ) : ℚ × ℚ :=
  let baseStartAngle := (baseAngles f genomeLength).1
  let baseEndAngle := (baseAngles f genomeLength).2
  if baseEndAngle - baseStartAngle < cfg.MIN_ANGLE_WIDTH then
    let centerAngle := (baseStartAngle + baseEndAngle) / 2
    let halfMinAngle := cfg.MIN_ANGLE_WIDTH / 2
    (centerAngle - halfMinAngle, centerAngle + halfMinAngle)
  else
    (baseStartAngle, baseEndAngle)

/-- The gap angle: `min(MAX_GAP_ANGLE, max(MIN_GAP_ANGLE, width·ratio))`,
where `width` is the (possibly widened) span and `ratio` is the
`GAP_ANGLE_RATIO` constant. -/
def gapAngle (cfg : RenderConfig) (baseAngleWidth : ℚ) : ℚ :=
  min cfg.MAX_GAP_ANGLE (max cfg.MIN_GAP_ANGLE (baseAngleWidth * cfg.GAP_ANGLE_RATIO))

/-- The actually drawn angles: gap added to the start and subtracted from the
end of the (possibly widened) span. -/
def drawnAngles (cfg : RenderConfig) (f : Feature) (genomeLength : ℚ) : ℚ × ℚ :=
  let startAngle := (widenedAngles cfg f genomeLength).1
  let endAngle := (widenedAngles cfg f genomeLength).2
  let g := gapAngle cfg (endAngle - startAngle)
  (startAngle + g, endAngle - g)

/-! ### Track model and radius stacking (`CircularRenderer.renderCanvasFeatures`
/ `renderSvgFeatures`, `FeatureRenderer.calculateTrackHeight`) -/

/-- A track (`Track` in `types/core.ts`). -/
structure Track where
  id : String
  name : String
  type : String
  color : String
  visible : Bool
  height : ℚ
  features : List Feature
deriving DecidableEq, Repr

/-- The non-GC tracks: type is none of `gc_content`, `gc_skew_plus`,
`gc_skew_minus`. -/
def nonGCTracks (tracks : List Track) : List Track :=
  tracks.filter fun t =>
    !(t.type == "gc_content") && !(t.type == "gc_skew_plus") && !(t.type == "gc_skew_minus")

/-- `tracks.find(track => track.type === ty)`. -/
def findTrack (tracks : List Track) (ty : String) : Option Track :=
  tracks.find? fun t => t.type == ty

/-- JavaScript truthiness of `track && track.visible`. -/
def foundVisible (o : Option Track) : Bool :=
  match o with
  | some t => t.visible
  | none => false

/-- `FeatureRenderer.calculateTrackHeight`:
`min(MAX, max(MIN, radius / (actualTrackCount + 2)))` where the count adds
one for a visible GC-content track and one for the merged GC-skew band. -/
def calculateTrackHeight (cfg : RenderConfig) (radius : ℚ) (nonGCTrackCount : ℕ)
    (gcContentVisible gcSkewVisible : Bool) : ℚ :=
  let actualTrackCount := nonGCTrackCount + (if gcContentVisible then 1 else 0)
    + (if gcSkewVisible then 1 else 0)
  min cfg.MAX_TRACK_HEIGHT (max cfg.MIN_TRACK_HEIGHT (radius / ((actualTrackCount : ℚ) + 2)))

/-- What a rendered band is: a regular (non-GC) track band, the GC-content
band, or the single merged GC-skew band. -/
inductive BandKind where
  | regular (t : Track)
  | gcContent (t : Track)
  | gcSkewMerged
deriving DecidableEq, Repr

/-- A band laid out at its outer radius. -/
structure Band where
  kind : BandKind
  outer : ℚ
deriving DecidableEq, Repr

/-- The loop of `renderCanvasNonGCTracks` / `renderSvgNonGCTracks`: one band
per visible non-GC track, walking `currentRadius` inward by
`trackHeight + trackSpacing` per track; also returns the final radius. -/
def regularBands (trackHeight trackSpacing : ℚ) :
    List Track → ℚ → List Band × ℚ
  | [], r => ([], r)
  | t :: ts, r =>
      let rest := regularBands trackHeight trackSpacing ts (r - (trackHeight + trackSpacing))
      (⟨BandKind.regular t, r⟩ :: rest.1, rest.2)

/-- The radius-stacking pass of `renderCanvasFeatures` / `renderSvgFeatures`:
visible non-GC tracks first, then the GC-content track if visible, then the
merged GC-skew band if either skew track is visible; each band consumes
`trackHeight + TRACK_SPACING`.  Returns the bands and the track height. -/
def renderBands (cfg : RenderConfig) (radius : ℚ) (tracks : List Track) :
    List Band × ℚ :=
  let visibleNonGC := (nonGCTracks tracks).filter fun t => t.visible
  let gcContentTrack := findTrack tracks "gc_content"
  let gcSkewPlusVisible := foundVisible (findTrack tracks "gc_skew_plus")
  let gcSkewMinusVisible := foundVisible (findTrack tracks "gc_skew_minus")
  let gcContentVisible := foundVisible gcContentTrack
  let gcSkewVisible := gcSkewPlusVisible || gcSkewMinusVisible
  let trackHeight := calculateTrackHeight cfg radius visibleNonGC.length
    gcContentVisible gcSkewVisible
  let trackSpacing := cfg.TRACK_SPACING
  let stepNonGC := regularBands trackHeight trackSpacing visibleNonGC radius
  let stepGC : List Band × ℚ :=
    match gcContentTrack with
    | some t =>
        if t.visible then
          (stepNonGC.1 ++ [⟨BandKind.gcContent t, stepNonGC.2⟩],
            stepNonGC.2 - trackHeight - trackSpacing)
        else (stepNonGC.1, stepNonGC.2)
    | none => (stepNonGC.1, stepNonGC.2)
  let bands :=
    if gcSkewVisible then stepGC.1 ++ [⟨BandKind.gcSkewMerged, stepGC.2⟩] else stepGC.1
  (bands, trackHeight)

/-- A concrete track list used to instantiate the layout theorem. -/
def layoutWitnessTracks : List Track :=
  [⟨"t1", "CDS", "CDS", "#4CAF50", true, 30, []⟩,
   ⟨"t2", "tRNA", "tRNA", "#2196F3", false, 30, []⟩,
   ⟨"t3", "GC Content", "gc_content", "#FF9800", true, 30, []⟩,
   ⟨"t4", "GC Skew+", "gc_skew_plus", "#9C27B0", true, 30, []⟩,
   ⟨"t5", "GC Skew-", "gc_skew_minus", "#F44336", true, 30, []⟩]

/-! ### Annulus-sector path markup (`createArcPath` in the renderer utils) -/

/-- JavaScript template-literal stringification of a number, abstracted as
the rational's string rendering. -/
def numStr (q : ℚ) : String :=
  toString q

/-- `createArcPath(cx, cy, outerRadius, innerRadius, startAngle, endAngle)`.
The trigonometric functions are abstracted as numeric oracles `cosF`/`sinF`
(the claim concerns the emitted markup structure, not their values). -/
def createArcPath (cosF sinF : ℚ → ℚ)
    (cx cy outerRadius innerRadius startAngle endAngle : ℚ) : String :=
  let startX1 := cx + cosF startAngle * outerRadius
  let startY1 := cy + sinF startAngle * outerRadius
  let endX1 := cx + cosF endAngle * outerRadius
  let endY1 := cy + sinF endAngle * outerRadius
  let startX2 := cx + cosF endAngle * innerRadius
  let startY2 := cy + sinF endAngle * innerRadius
  let endX2 := cx + cosF startAngle * innerRadius
  let endY2 := cy + sinF startAngle * innerRadius
  let largeArcFlag := if endAngle - startAngle > piQ then "1" else "0"
  "M " ++ numStr startX1 ++ " " ++ numStr startY1 ++ " " ++
    "A " ++ numStr outerRadius ++ " " ++ numStr outerRadius ++ " 0 " ++
    largeArcFlag ++ " 1 " ++ numStr endX1 ++ " " ++ numStr endY1 ++ " " ++
    "L " ++ numStr startX2 ++ " " ++ numStr startY2 ++ " " ++
    "A " ++ numStr innerRadius ++ " " ++ numStr innerRadius ++ " 0 " ++
    largeArcFlag ++ " 0 " ++ numStr endX2 ++ " " ++ numStr endY2 ++ " Z"

/-- The spec's annulus-sector grammar
`M x1 y1 A rx ry 0 {0|1} 1 x2 y2 L x3 y3 A rx ry 0 {0|1} 0 x4 y4 Z`,
with the first arc's radii both `rOuter`, the second arc's both `rInner`,
and the same large-arc flag in both `A` commands. -/
def ArcPathGrammar (s : String) (rOuter rInner : ℚ) (flag : String) : Prop :=
  (flag = "0" ∨ flag = "1") ∧
  ∃ x1 y1 x2 y2 x3 y3 x4 y4 : ℚ,
    s = "M " ++ numStr x1 ++ " " ++ numStr y1 ++ " " ++
      "A " ++ numStr rOuter ++ " " ++ numStr rOuter ++ " 0 " ++
      flag ++ " 1 " ++ numStr x2 ++ " " ++ numStr y2 ++ " " ++
      "L " ++ numStr x3 ++ " " ++ numStr y3 ++ " " ++
      "A " ++ numStr rInner ++ " " ++ numStr rInner ++ " 0 " ++
      flag ++ " 0 " ++ numStr x4 ++ " " ++ numStr y4 ++ " Z"

end GffViewer

attribute [local semireducible] Rat.mul Rat.inv Rat.add Rat.sub Rat.ofScientific

namespace GffViewer

/-! ## Claim C1: interval-tree query exactness -/

/-- C1: the claim says `query(a,b)` over any insert sequence returns exactly
the features with `f.end >= a ∧ f.start <= b`.  The code violates this:
after inserting `[40,60]`, `[100,100]`, `[0,190]`, the query `(0,10)` returns
nothing, although `[0,190]` overlaps `[0,10]`.  The cause is that
`IntervalNode.min` is set at construction and never maintained
(`updateMax` updates only `max`), so the pruning test `right.min <= end`
wrongly discards the right subtree that holds `[0,190]`. -/
theorem C1_query_misses_overlapping_feature :
    ITree.query (ITree.insertAll [mkF "A" 40 60, mkF "B" 100 100, mkF "C" 0 190]) 0 10 = [] ∧
    (specQuery [mkF "A" 40 60, mkF "B" 100 100, mkF "C" 0 190] 0 10).map Feature.id = ["C"] := by
  constructor
  · decide
  · decide

/-! ## Claim C2: accepted label intervals and angular wraparound -/

theorem canRenderLabel_snd_pairwise (f : Feature) (genomeLength labelAngleWidth : ℚ)
    (acc : List AngleInterval) (h : acc.Pairwise NoCollide) :
    ((canRenderLabel f genomeLength acc labelAngleWidth).2).Pairwise NoCollide := by
  unfold canRenderLabel
  by_cases hc : (acc.any fun label =>
      checkAngleCollision (labelInterval f genomeLength labelAngleWidth).start
        (labelInterval f genomeLength labelAngleWidth).«end» label.start label.«end») = true
  · simpa [hc] using h
  · have hall := List.any_eq_false.mp (Bool.eq_false_iff.mpr hc)
    simp only [hc, Bool.not_false, if_true]
    rw [List.pairwise_append]
    refine ⟨h, List.pairwise_singleton _ _, ?_⟩
    intro e he i hi
    rw [List.mem_singleton] at hi
    subst hi
    exact Bool.eq_false_iff.mpr (hall e he)

theorem processLabels_pairwise (genomeLength labelAngleWidth : ℚ) (fs : List Feature)
    (acc : List AngleInterval) (h : acc.Pairwise NoCollide) :
    (fs.foldl (fun a f => (canRenderLabel f genomeLength a labelAngleWidth).2) acc).Pairwise
      NoCollide := by
  induction fs generalizing acc with
  | nil => exact h
  | cons f fs ih =>
      exact ih _ (canRenderLabel_snd_pairwise f genomeLength labelAngleWidth acc h)

/-- C2 (counterexample): with genome length 100 and label width 1/5, the
features `[0,0]` and `[100,100]` are both accepted, yet the second accepted
interval shifted by `-2π` overlaps the first — refuting the claim that
accepted intervals never overlap even after shifting by `-2π`
(`checkAngleCollision` only retries the `+2π` shift). -/
theorem C2_counterexample_minus_two_pi_overlap :
    processLabels 100 (1/5) [mkF "f1" 0 0, mkF "f2" 100 100] =
      [⟨-(1/10), 1/10⟩, ⟨2*piQ - 1/10, 2*piQ + 1/10⟩] ∧
    ((2*piQ - 1/10) + -(2*piQ) < (1/10 : ℚ) ∧
     (2*piQ + 1/10) + -(2*piQ) > (-(1/10) : ℚ)) := by
  constructor
  · decide
  · constructor <;> decide

/-- C2 (amended): in every label-placement run, no later-accepted interval
overlaps an earlier-accepted one, either unshifted or with the later interval
shifted by `+2π`; the `-2π` shift of the claim is NOT checked by the code
(see the counterexample). -/
theorem C2_accepted_intervals_no_overlap_up_to_plus_two_pi
    (genomeLength labelAngleWidth : ℚ) (fs : List Feature) :
    (processLabels genomeLength labelAngleWidth fs).Pairwise (fun e l =>
      ¬(l.start < e.«end» ∧ l.«end» > e.start) ∧
      ¬(l.start + 2*piQ < e.«end» ∧ l.«end» + 2*piQ > e.start)) := by
  refine (processLabels_pairwise genomeLength labelAngleWidth fs [] List.Pairwise.nil).imp ?_
  intro e l hnc
  unfold NoCollide checkAngleCollision at hnc
  simp only [Bool.or_eq_false_iff, Bool.and_eq_false_iff, decide_eq_false_iff_not] at hnc
  constructor
  · rcases hnc.1 with h | h
    · exact fun hcontra => h hcontra.1
    · exact fun hcontra => h hcontra.2
  · rcases hnc.2 with h | h
    · exact fun hcontra => h hcontra.1
    · exact fun hcontra => h hcontra.2

/-! ## Claim C10: canRenderLabel acceptance and list update -/

/-- C10: `canRenderLabel` returns `true` iff the interval of width
`labelAngleWidth` centred on the feature's angular midpoint
(`labelInterval`, which equals `[c - w/2, c + w/2]` for the midpoint `c`)
collides with no previously accepted interval; on `true` it appends exactly
that interval to the shared list, on `false` it leaves the list unchanged. -/
theorem C10_canRenderLabel_accepts_iff_no_collision (f : Feature)
    (genomeLength labelAngleWidth : ℚ) (rendered : List AngleInterval) :
    labelInterval f genomeLength labelAngleWidth =
      ⟨(f.start / genomeLength * piQ * 2 + f.«end» / genomeLength * piQ * 2) / 2
          - labelAngleWidth / 2,
        (f.start / genomeLength * piQ * 2 + f.«end» / genomeLength * piQ * 2) / 2
          + labelAngleWidth / 2⟩ ∧
    ((canRenderLabel f genomeLength rendered labelAngleWidth).1 = true ↔
      ∀ l ∈ rendered,
        checkAngleCollision (labelInterval f genomeLength labelAngleWidth).start
          (labelInterval f genomeLength labelAngleWidth).«end» l.start l.«end» = false) ∧
    (canRenderLabel f genomeLength rendered labelAngleWidth).2 =
      (if (canRenderLabel f genomeLength rendered labelAngleWidth).1 then
        rendered ++ [labelInterval f genomeLength labelAngleWidth]
      else rendered) := by
  refine ⟨rfl, ?_⟩
  simp only [canRenderLabel]
  split
  · rename_i h
    have hany : (rendered.any fun label =>
        checkAngleCollision (labelInterval f genomeLength labelAngleWidth).start
          (labelInterval f genomeLength labelAngleWidth).«end» label.start label.«end»)
          = false := by
      simpa using h
    rw [List.any_eq_false] at hany
    refine ⟨⟨fun _ l hl => ?_, fun _ => rfl⟩, rfl⟩
    simpa using hany l hl
  · rename_i h
    have hany : (rendered.any fun label =>
        checkAngleCollision (labelInterval f genomeLength labelAngleWidth).start
          (labelInterval f genomeLength labelAngleWidth).«end» label.start label.«end»)
          = true := by
      simpa using h
    rw [List.any_eq_true] at hany
    obtain ⟨x, hx, hpx⟩ := hany
    exact ⟨⟨fun hcontra => absurd hcontra (by simp),
      fun hall => absurd (hall x hx) (by simp [hpx])⟩, rfl⟩

/-! ## Claim C6: LOD buckets partition the zoom axis -/

theorem defaultLOD_match_unique (z : ℚ) (m1 m2 : LODLevel)
    (h1 : m1 ∈ defaultLODLevels) (h2 : m2 ∈ defaultLODLevels)
    (hm1 : lodMatches z m1 = true) (hm2 : lodMatches z m2 = true) : m1 = m2 := by
  fin_cases h1 <;> fin_cases h2 <;>
    simp only [lodMatches, ltMaxZoom, Bool.and_eq_true, decide_eq_true_eq] at hm1 hm2 <;>
    first
      | rfl
      | (exfalso
         obtain ⟨a1, b1⟩ := hm1
         obtain ⟨a2, b2⟩ := hm2
         (try simp at b1); (try simp at b2); linarith)

/-- C6: for every zoom `z ≥ 0` there is exactly one default bucket with
`minZoom <= z < maxZoom`, `getLOD` returns it (so the six default buckets
tile `[0, ∞)` with no gaps, the last bucket's `maxZoom` being `Infinity`),
and on any table where no bucket matches, `getLOD` falls back to the last
bucket. -/
theorem C6_getLOD_unique_bucket_and_fallback :
    (∀ z : ℚ, 0 ≤ z →
      ∃ l, (l ∈ defaultLODLevels ∧ lodMatches z l = true) ∧
        (∀ m ∈ defaultLODLevels, lodMatches z m = true → m = l) ∧
        getLOD defaultLODLevels z = some l) ∧
    (∀ (levels : List LODLevel) (z : ℚ),
      (∀ l ∈ levels, lodMatches z l = false) → getLOD levels z = levels.getLast?) := by
  constructor
  · intro z hz
    have exists_of : ∀ l : LODLevel, l ∈ defaultLODLevels → lodMatches z l = true →
        getLOD defaultLODLevels z = some l →
        ∃ m, (m ∈ defaultLODLevels ∧ lodMatches z m = true) ∧
          (∀ m2 ∈ defaultLODLevels, lodMatches z m2 = true → m2 = m) ∧
          getLOD defaultLODLevels z = some m := by
      intro l hmem hmatch hget
      exact ⟨l, ⟨hmem, hmatch⟩,
        fun m2 hm2 hmatch2 => defaultLOD_match_unique z m2 l hm2 hmem hmatch2 hmatch, hget⟩
    rcases lt_or_le z (1/10) with h1 | h1
    · refine exists_of ⟨0, some (1/10), 1, false, true, 1/100⟩ (by decide) ?_ ?_
      · simp only [lodMatches, ltMaxZoom]
        rw [decide_eq_true hz, decide_eq_true h1]
        rfl
      · simp only [getLOD, defaultLODLevels, List.find?, lodMatches, ltMaxZoom]
        rw [decide_eq_true hz, decide_eq_true h1]
        rfl
    rcases lt_or_le z (1/2) with h2 | h2
    · refine exists_of ⟨1/10, some (1/2), 2, false, true, 1/20⟩ (by decide) ?_ ?_
      · simp only [lodMatches, ltMaxZoom]
        rw [decide_eq_true h1, decide_eq_true h2]
        rfl
      · simp only [getLOD, defaultLODLevels, List.find?, lodMatches, ltMaxZoom]
        rw [decide_eq_true hz, decide_eq_false (not_lt.mpr h1),
            decide_eq_true h1, decide_eq_true h2]
        rfl
    rcases lt_or_le z 1 with h3 | h3
    · refine exists_of ⟨1/2, some 1, 3, true, true, 1/10⟩ (by decide) ?_ ?_
      · simp only [lodMatches, ltMaxZoom]
        rw [decide_eq_true h2, decide_eq_true h3]
        rfl
      · simp only [getLOD, defaultLODLevels, List.find?, lodMatches, ltMaxZoom]
        rw [decide_eq_true hz, decide_eq_false (not_lt.mpr h1),
            decide_eq_true h1, decide_eq_false (not_lt.mpr h2),
            decide_eq_true h2, decide_eq_true h3]
        rfl
    rcases lt_or_le z 2 with h4 | h4
    · refine exists_of ⟨1, some 2, 4, true, true, 1/2⟩ (by decide) ?_ ?_
      · simp only [lodMatches, ltMaxZoom]
        rw [decide_eq_true h3, decide_eq_true h4]
        rfl
      · simp only [getLOD, defaultLODLevels, List.find?, lodMatches, ltMaxZoom]
        rw [decide_eq_true hz, decide_eq_false (not_lt.mpr h1),
            decide_eq_true h1, decide_eq_false (not_lt.mpr h2),
            decide_eq_true h2, decide_eq_false (not_lt.mpr h3),
            decide_eq_true h3, decide_eq_true h4]
        rfl
    rcases lt_or_le z 5 with h5 | h5
    · refine exists_of ⟨2, some 5, 5, true, true, 1⟩ (by decide) ?_ ?_
      · simp only [lodMatches, ltMaxZoom]
        rw [decide_eq_true h4, decide_eq_true h5]
        rfl
      · simp only [getLOD, defaultLODLevels, List.find?, lodMatches, ltMaxZoom]
        rw [decide_eq_true hz, decide_eq_false (not_lt.mpr h1),
            decide_eq_true h1, decide_eq_false (not_lt.mpr h2),
            decide_eq_true h2, decide_eq_false (not_lt.mpr h3),
            decide_eq_true h3, decide_eq_false (not_lt.mpr h4),
            decide_eq_true h4, decide_eq_true h5]
        rfl
    · refine exists_of ⟨5, none, 6, true, true, 2⟩ (by decide) ?_ ?_
      · simp only [lodMatches, ltMaxZoom]
        rw [decide_eq_true h5]
        rfl
      · simp only [getLOD, defaultLODLevels, List.find?, lodMatches, ltMaxZoom]
        rw [decide_eq_true hz, decide_eq_false (not_lt.mpr h1),
            decide_eq_true h1, decide_eq_false (not_lt.mpr h2),
            decide_eq_true h2, decide_eq_false (not_lt.mpr h3),
            decide_eq_true h3, decide_eq_false (not_lt.mpr h4),
            decide_eq_true h4, decide_eq_false (not_lt.mpr h5),
            decide_eq_true h5]
        rfl
  · intro levels z hall
    have hnone : levels.find? (lodMatches z) = none :=
      List.find?_eq_none.mpr fun x hx => by simp [hall x hx]
    simp [getLOD, hnone]

/-! ## Claim C3: point-anchored zoom keeps the world point under the cursor -/

/-- C3: for any target level and anchor point, with nonzero current zoom and
nonzero target level, the world coordinate under the anchor —
`(point - groupPosition) / scale` — is unchanged by the point-anchored zoom,
both for the canvas path (`setCanvasZoomLevel`) and for the SVG path
(`setSvgZoomLevel`); in exact arithmetic the equality is exact, which
subsumes the claim's floating-point tolerance. -/
theorem C3_zoom_anchor_invariant (zoomLevel level : ℚ) (point : Vec2)
    (scene : CanvasScene) (t : SvgTransform)
    (hprev : zoomLevel ≠ 0) (hlevel : level ≠ 0) :
    worldUnder point (setCanvasZoomLevel zoomLevel level point scene).1.circlePos level =
      worldUnder point scene.circlePos zoomLevel ∧
    worldUnder point (setSvgZoomLevel zoomLevel level point t).translate level =
      worldUnder point t.translate zoomLevel := by
  constructor
  · simp only [setCanvasZoomLevel, worldUnder, Vec2.mk.injEq]
    constructor <;> (field_simp; ring)
  · simp only [setSvgZoomLevel, worldUnder, Vec2.mk.injEq]
    constructor <;> (field_simp; ring)

theorem C3_zoom_anchor_invariant_witness :
    worldUnder ⟨100, 100⟩
        (setCanvasZoomLevel 1 2 ⟨100, 100⟩ ⟨⟨10, 20⟩, 1, ⟨0, 0⟩⟩).1.circlePos 2 =
      worldUnder ⟨100, 100⟩ (⟨10, 20⟩ : Vec2) 1 ∧
    worldUnder ⟨100, 100⟩
        (setSvgZoomLevel 1 2 ⟨100, 100⟩ ⟨⟨5, 6⟩, some 1⟩).translate 2 =
      worldUnder ⟨100, 100⟩ (⟨5, 6⟩ : Vec2) 1 :=
  C3_zoom_anchor_invariant 1 2 ⟨100, 100⟩ ⟨⟨10, 20⟩, 1, ⟨0, 0⟩⟩ ⟨⟨5, 6⟩, some 1⟩
    (by norm_num) (by norm_num)

/-! ## Claim C8: pan is cumulative and never touches the legend -/

/-- C8: `setPanOffset` adds the offset to the current scene-group position —
for canvas, `circleContainer.position += offset`; for SVG, each of the four
scene groups gets the offset added to its parsed translate — and the legend
containers (canvas legend container, SVG `legendContainer`) keep their
position/transform unchanged. -/
theorem C8_pan_cumulative_legend_fixed (offset : Vec2) (sc : RenderScene)
    (hstage : sc.stageHasCircle = true) (hsvg : sc.hasSvg = true) :
    ((setPanOffset offset "canvas" sc).circlePos =
        ⟨sc.circlePos.x + offset.x, sc.circlePos.y + offset.y⟩ ∧
      (setPanOffset offset "canvas" sc).canvasLegendPos = sc.canvasLegendPos ∧
      (setPanOffset offset "canvas" sc).legendT = sc.legendT) ∧
    ((setPanOffset offset "svg" sc).gridT.translate =
        ⟨sc.gridT.translate.x + offset.x, sc.gridT.translate.y + offset.y⟩ ∧
      (setPanOffset offset "svg" sc).featT.translate =
        ⟨sc.featT.translate.x + offset.x, sc.featT.translate.y + offset.y⟩ ∧
      (setPanOffset offset "svg" sc).labelT.translate =
        ⟨sc.labelT.translate.x + offset.x, sc.labelT.translate.y + offset.y⟩ ∧
      (setPanOffset offset "svg" sc).scaleT.translate =
        ⟨sc.scaleT.translate.x + offset.x, sc.scaleT.translate.y + offset.y⟩ ∧
      (setPanOffset offset "svg" sc).legendT = sc.legendT ∧
      (setPanOffset offset "svg" sc).canvasLegendPos = sc.canvasLegendPos) := by
  constructor
  · simp [setPanOffset, hstage]
  · simp [setPanOffset, panSvgGroup, hsvg]

theorem C8_pan_cumulative_legend_fixed_witness :
    ((setPanOffset ⟨3, 4⟩ "canvas" panWitnessScene).circlePos =
        ⟨panWitnessScene.circlePos.x + 3, panWitnessScene.circlePos.y + 4⟩ ∧
      (setPanOffset ⟨3, 4⟩ "canvas" panWitnessScene).canvasLegendPos =
        panWitnessScene.canvasLegendPos ∧
      (setPanOffset ⟨3, 4⟩ "canvas" panWitnessScene).legendT =
        panWitnessScene.legendT) ∧
    ((setPanOffset ⟨3, 4⟩ "svg" panWitnessScene).gridT.translate =
        ⟨panWitnessScene.gridT.translate.x + 3, panWitnessScene.gridT.translate.y + 4⟩ ∧
      (setPanOffset ⟨3, 4⟩ "svg" panWitnessScene).featT.translate =
        ⟨panWitnessScene.featT.translate.x + 3, panWitnessScene.featT.translate.y + 4⟩ ∧
      (setPanOffset ⟨3, 4⟩ "svg" panWitnessScene).labelT.translate =
        ⟨panWitnessScene.labelT.translate.x + 3, panWitnessScene.labelT.translate.y + 4⟩ ∧
      (setPanOffset ⟨3, 4⟩ "svg" panWitnessScene).scaleT.translate =
        ⟨panWitnessScene.scaleT.translate.x + 3, panWitnessScene.scaleT.translate.y + 4⟩ ∧
      (setPanOffset ⟨3, 4⟩ "svg" panWitnessScene).legendT = panWitnessScene.legendT ∧
      (setPanOffset ⟨3, 4⟩ "svg" panWitnessScene).canvasLegendPos =
        panWitnessScene.canvasLegendPos) :=
  C8_pan_cumulative_legend_fixed ⟨3, 4⟩ panWitnessScene rfl rfl

/-! ## Claim C9: Feature JSON round-trip -/

theorem orElseNum_some (q : ℚ) : orElseNum (some q) = q := by
  unfold orElseNum
  split <;> simp_all

theorem orElseStr_some_of_ne (s dflt : String) (h : s ≠ "") :
    orElseStr (some s) dflt = s := by
  simp [orElseStr, h]

theorem orElseStr_ne (v : Option String) (dflt : String) (h : dflt ≠ "") :
    orElseStr v dflt ≠ "" := by
  cases v with
  | none => simpa [orElseStr] using h
  | some s =>
      by_cases hs : s = "" <;> simp [orElseStr, hs, h]

theorem mkFeature_start_le_end (freshId : String) (d : FeatureData) :
    (mkFeature freshId d).start ≤ (mkFeature freshId d).«end» := by
  simp only [mkFeature]
  split
  · rename_i hgt
    dsimp only
    exact le_of_lt hgt
  · rename_i hgt
    dsimp only
    exact not_lt.mp hgt

theorem mkFeature_id_ne (freshId : String) (d : FeatureData) (h : freshId ≠ "") :
    (mkFeature freshId d).id ≠ "" := by
  simp only [mkFeature]
  split <;> exact orElseStr_ne d.id freshId h

theorem mkFeature_type_ne (freshId : String) (d : FeatureData) :
    (mkFeature freshId d).type ≠ "" := by
  simp only [mkFeature]
  split <;> exact orElseStr_ne d.type "CDS" (by simp)

theorem fromJSON_toJSON_of_invariants (freshId2 : String) (g : Feature)
    (hle : g.start ≤ g.«end») (hid : g.id ≠ "") (htype : g.type ≠ "") :
    Feature.fromJSON freshId2 (Feature.toJSON g) = g := by
  simp only [Feature.fromJSON, Feature.toJSON, mkFeature]
  simp only [orElseNum_some, orElseStr_some_of_ne g.id freshId2 hid,
    orElseStr_some_of_ne g.type "CDS" htype, Option.getD_some]
  rw [if_neg (not_lt.mpr hle)]

/-- C9: serialising any constructed `Feature` with `toJSON` and reading it
back with `fromJSON` reproduces identical `id`, `name`, `type`, `start`,
`end`, `strand` and `attributes` (the attribute association list is equal
entry by entry).  `freshId`/`freshId2` stand for the impure `generateId()`
results, which are never empty. -/
theorem C9_feature_roundtrip (freshId freshId2 : String) (d : FeatureData)
    (hfresh : freshId ≠ "") :
    (Feature.fromJSON freshId2 (Feature.toJSON (mkFeature freshId d))).id =
        (mkFeature freshId d).id ∧
    (Feature.fromJSON freshId2 (Feature.toJSON (mkFeature freshId d))).name =
        (mkFeature freshId d).name ∧
    (Feature.fromJSON freshId2 (Feature.toJSON (mkFeature freshId d))).type =
        (mkFeature freshId d).type ∧
    (Feature.fromJSON freshId2 (Feature.toJSON (mkFeature freshId d))).start =
        (mkFeature freshId d).start ∧
    (Feature.fromJSON freshId2 (Feature.toJSON (mkFeature freshId d))).«end» =
        (mkFeature freshId d).«end» ∧
    (Feature.fromJSON freshId2 (Feature.toJSON (mkFeature freshId d))).strand =
        (mkFeature freshId d).strand ∧
    (Feature.fromJSON freshId2 (Feature.toJSON (mkFeature freshId d))).attributes =
        (mkFeature freshId d).attributes := by
  have h := fromJSON_toJSON_of_invariants freshId2 (mkFeature freshId d)
    (mkFeature_start_le_end freshId d) (mkFeature_id_ne freshId d hfresh)
    (mkFeature_type_ne freshId d)
  rw [h]
  exact ⟨rfl, rfl, rfl, rfl, rfl, rfl, rfl⟩

theorem C9_feature_roundtrip_witness :
    (Feature.fromJSON "feature_2" (Feature.toJSON (mkFeature "feature_1" rtWitnessData))).id =
        (mkFeature "feature_1" rtWitnessData).id ∧
    (Feature.fromJSON "feature_2" (Feature.toJSON (mkFeature "feature_1" rtWitnessData))).name =
        (mkFeature "feature_1" rtWitnessData).name ∧
    (Feature.fromJSON "feature_2" (Feature.toJSON (mkFeature "feature_1" rtWitnessData))).type =
        (mkFeature "feature_1" rtWitnessData).type ∧
    (Feature.fromJSON "feature_2" (Feature.toJSON (mkFeature "feature_1" rtWitnessData))).start =
        (mkFeature "feature_1" rtWitnessData).start ∧
    (Feature.fromJSON "feature_2" (Feature.toJSON (mkFeature "feature_1" rtWitnessData))).«end» =
        (mkFeature "feature_1" rtWitnessData).«end» ∧
    (Feature.fromJSON "feature_2" (Feature.toJSON (mkFeature "feature_1" rtWitnessData))).strand =
        (mkFeature "feature_1" rtWitnessData).strand ∧
    (Feature.fromJSON "feature_2" (Feature.toJSON (mkFeature "feature_1" rtWitnessData))).attributes =
        (mkFeature "feature_1" rtWitnessData).attributes :=
  C9_feature_roundtrip "feature_1" "feature_2" rtWitnessData (by simp)


/-! ## Claim C7: annulus-sector path grammar -/

/-- C7: `createArcPath` always emits markup in the spec's grammar
`M x1 y1 A rx ry 0 {0|1} 1 x2 y2 L x3 y3 A rx ry 0 {0|1} 0 x4 y4 Z`, with
`rx = ry = outerRadius` in the first `A` command and `innerRadius` in the
second, and with the same large-arc flag — `1` exactly when
`endAngle - startAngle > π` — in both `A` commands. -/
theorem C7_createArcPath_matches_grammar (cosF sinF : ℚ → ℚ)
    (cx cy outerRadius innerRadius startAngle endAngle : ℚ) :
    ArcPathGrammar (createArcPath cosF sinF cx cy outerRadius innerRadius startAngle endAngle)
      outerRadius innerRadius (if endAngle - startAngle > piQ then "1" else "0") := by
  constructor
  · split
    · exact Or.inr rfl
    · exact Or.inl rfl
  · exact ⟨cx + cosF startAngle * outerRadius, cy + sinF startAngle * outerRadius,
      cx + cosF endAngle * outerRadius, cy + sinF endAngle * outerRadius,
      cx + cosF endAngle * innerRadius, cy + sinF endAngle * innerRadius,
      cx + cosF startAngle * innerRadius, cy + sinF startAngle * innerRadius, rfl⟩

/-! ## Claim C4: minimum angular width for short features -/

/-- C4 (counterexample): under the spec-modelled configuration, a single-base
feature (span below `MIN_ANGLE_WIDTH`) is drawn with span
`MIN_ANGLE_WIDTH - 2·gapAngle`, not exactly `MIN_ANGLE_WIDTH`: the gap
shrink runs after the min-width widening. -/
theorem C4_counterexample_drawn_span_not_min_width :
    ((baseAngles (mkF "g" 1 1) 10000).2 - (baseAngles (mkF "g" 1 1) 10000).1
        < specConfig.MIN_ANGLE_WIDTH) ∧
    ((drawnAngles specConfig (mkF "g" 1 1) 10000).2 -
        (drawnAngles specConfig (mkF "g" 1 1) 10000).1 ≠ specConfig.MIN_ANGLE_WIDTH) := by
  constructor
  · decide
  · decide

/-- C4 (amended): for every feature whose base span is below
`MIN_ANGLE_WIDTH`, the widened span (before the gap adjustment) equals
exactly `MIN_ANGLE_WIDTH` and is centred on the original angular midpoint;
the actually drawn span is `MIN_ANGLE_WIDTH - 2·gapAngle(MIN_ANGLE_WIDTH)`
— still centred on the original midpoint — because both ends are then
shrunk by the gap angle. -/
theorem C4_min_width_widened_span_recentred (cfg : RenderConfig) (f : Feature)
    (genomeLength : ℚ)
    (h : (baseAngles f genomeLength).2 - (baseAngles f genomeLength).1
      < cfg.MIN_ANGLE_WIDTH) :
    (widenedAngles cfg f genomeLength).2 - (widenedAngles cfg f genomeLength).1 =
        cfg.MIN_ANGLE_WIDTH ∧
    ((widenedAngles cfg f genomeLength).1 + (widenedAngles cfg f genomeLength).2) / 2 =
        ((baseAngles f genomeLength).1 + (baseAngles f genomeLength).2) / 2 ∧
    (drawnAngles cfg f genomeLength).2 - (drawnAngles cfg f genomeLength).1 =
        cfg.MIN_ANGLE_WIDTH - 2 * gapAngle cfg cfg.MIN_ANGLE_WIDTH ∧
    ((drawnAngles cfg f genomeLength).1 + (drawnAngles cfg f genomeLength).2) / 2 =
        ((baseAngles f genomeLength).1 + (baseAngles f genomeLength).2) / 2 := by
  have hw : widenedAngles cfg f genomeLength =
      (((baseAngles f genomeLength).1 + (baseAngles f genomeLength).2) / 2
          - cfg.MIN_ANGLE_WIDTH / 2,
        ((baseAngles f genomeLength).1 + (baseAngles f genomeLength).2) / 2
          + cfg.MIN_ANGLE_WIDTH / 2) := by
    simp only [widenedAngles]
    rw [if_pos h]
  have harg : (((baseAngles f genomeLength).1 + (baseAngles f genomeLength).2) / 2
        + cfg.MIN_ANGLE_WIDTH / 2)
      - (((baseAngles f genomeLength).1 + (baseAngles f genomeLength).2) / 2
        - cfg.MIN_ANGLE_WIDTH / 2) = cfg.MIN_ANGLE_WIDTH := by
    ring
  refine ⟨?_, ?_, ?_, ?_⟩
  · rw [hw]
    dsimp only
    ring
  · rw [hw]
    dsimp only
    ring
  · simp only [drawnAngles]
    rw [hw]
    dsimp only
    rw [harg]
    ring
  · simp only [drawnAngles]
    rw [hw]
    dsimp only
    rw [harg]
    ring

theorem C4_min_width_widened_span_recentred_witness :
    (widenedAngles specConfig (mkF "g" 1 1) 10000).2 -
        (widenedAngles specConfig (mkF "g" 1 1) 10000).1 = specConfig.MIN_ANGLE_WIDTH ∧
    ((widenedAngles specConfig (mkF "g" 1 1) 10000).1 +
        (widenedAngles specConfig (mkF "g" 1 1) 10000).2) / 2 =
      ((baseAngles (mkF "g" 1 1) 10000).1 + (baseAngles (mkF "g" 1 1) 10000).2) / 2 ∧
    (drawnAngles specConfig (mkF "g" 1 1) 10000).2 -
        (drawnAngles specConfig (mkF "g" 1 1) 10000).1 =
      specConfig.MIN_ANGLE_WIDTH - 2 * gapAngle specConfig specConfig.MIN_ANGLE_WIDTH ∧
    ((drawnAngles specConfig (mkF "g" 1 1) 10000).1 +
        (drawnAngles specConfig (mkF "g" 1 1) 10000).2) / 2 =
      ((baseAngles (mkF "g" 1 1) 10000).1 + (baseAngles (mkF "g" 1 1) 10000).2) / 2 :=
  C4_min_width_widened_span_recentred specConfig (mkF "g" 1 1) 10000 (by decide)


/-! ## Claim C5: track height and concentric band walk -/

theorem regularBands_snd (trackHeight trackSpacing : ℚ) (ts : List Track) (r : ℚ) :
    (regularBands trackHeight trackSpacing ts r).2 =
      r - ts.length * (trackHeight + trackSpacing) := by
  induction ts generalizing r with
  | nil => simp [regularBands]
  | cons t ts ih =>
      simp only [regularBands, ih, List.length_cons]
      push_cast
      ring

theorem regularBands_fst_outer (trackHeight trackSpacing : ℚ) (ts : List Track) (r : ℚ) :
    ((regularBands trackHeight trackSpacing ts r).1).map Band.outer =
      (List.range ts.length).map fun i : ℕ => r - (i : ℚ) * (trackHeight + trackSpacing) := by
  induction ts generalizing r with
  | nil => rfl
  | cons t ts ih =>
      simp only [regularBands, List.map_cons, List.length_cons, List.range_succ_eq_map,
        List.map_map, ih]
      congr 1
      · push_cast
        ring
      · apply List.map_congr_left
        intro a _
        simp only [Function.comp_apply]
        push_cast
        ring

theorem regularBands_fst_kind (trackHeight trackSpacing : ℚ) (ts : List Track) (r : ℚ) :
    ((regularBands trackHeight trackSpacing ts r).1).map Band.kind =
      ts.map BandKind.regular := by
  induction ts generalizing r with
  | nil => rfl
  | cons t ts ih => simp only [regularBands, List.map_cons, ih]

theorem regularBands_fst_length (trackHeight trackSpacing : ℚ) (ts : List Track) (r : ℚ) :
    ((regularBands trackHeight trackSpacing ts r).1).length = ts.length := by
  have h := congrArg List.length (regularBands_fst_kind trackHeight trackSpacing ts r)
  simpa using h



theorem foundVisible_eq_any (tracks : List Track) (ty : String)
    (h : (tracks.filter fun t => t.type == ty).length ≤ 1) :
    foundVisible (findTrack tracks ty) =
      tracks.any fun t => t.type == ty && t.visible := by
  induction tracks with
  | nil => rfl
  | cons t ts ih =>
      by_cases ht : (t.type == ty) = true
      · have hfind : findTrack (t :: ts) ty = some t := by
          simp [findTrack, List.find?_cons, ht]
        have hlen : (ts.filter fun u => u.type == ty).length = 0 := by
          simp only [List.filter_cons, ht, if_true, List.length_cons] at h
          omega
        have hnone : ∀ u ∈ ts, ¬(u.type == ty) = true := by
          intro u hu hut
          have hmem : u ∈ ts.filter fun v => v.type == ty :=
            List.mem_filter.mpr ⟨hu, hut⟩
          rw [List.length_eq_zero] at hlen
          rw [hlen] at hmem
          cases hmem
        have hany : (ts.any fun u => u.type == ty && u.visible) = false := by
          rw [List.any_eq_false]
          intro u hu
          simp only [Bool.and_eq_true, not_and]
          intro hut
          exact absurd hut (hnone u hu)
        rw [hfind]
        simp [foundVisible, List.any_cons, ht, hany]
      · have hfind : findTrack (t :: ts) ty = findTrack ts ty := by
          simp [findTrack, List.find?_cons, ht]
        have hh : (ts.filter fun u => u.type == ty).length ≤ 1 := by
          simpa [List.filter_cons, ht] using h
        rw [hfind, ih hh]
        simp [List.any_cons, ht]

theorem any_skew_split (tracks : List Track) :
    (tracks.any fun t => (t.type == "gc_skew_plus" || t.type == "gc_skew_minus") && t.visible) =
      ((tracks.any fun t => t.type == "gc_skew_plus" && t.visible) ||
        (tracks.any fun t => t.type == "gc_skew_minus" && t.visible)) := by
  induction tracks with
  | nil => rfl
  | cons t ts ih =>
      simp only [List.any_cons, ih]
      cases ht1 : (t.type == "gc_skew_plus") <;> cases ht2 : (t.type == "gc_skew_minus") <;>
        cases hv : t.visible <;>
        simp [Bool.or_assoc, Bool.or_comm, Bool.or_left_comm]



theorem bands_outer_zero (H S radius : ℚ) (vis : List Track) :
    ((regularBands H S vis radius).1).map Band.outer =
      (List.range vis.length).map (fun i : ℕ => radius - (i : ℚ) * (H + S)) :=
  regularBands_fst_outer H S vis radius

theorem bands_outer_one (H S radius : ℚ) (vis : List Track) (k : BandKind) :
    (((regularBands H S vis radius).1 ++
        [Band.mk k (regularBands H S vis radius).2]).map Band.outer) =
      (List.range (vis.length + 1)).map (fun i : ℕ => radius - (i : ℚ) * (H + S)) := by
  rw [List.map_append, regularBands_fst_outer, List.range_succ, List.map_append]
  congr 1
  simp only [List.map_cons, List.map_nil]
  rw [regularBands_snd]

theorem bands_outer_two (H S radius : ℚ) (vis : List Track) (k1 k2 : BandKind) :
    ((((regularBands H S vis radius).1 ++ [Band.mk k1 (regularBands H S vis radius).2]) ++
        [Band.mk k2 ((regularBands H S vis radius).2 - H - S)]).map Band.outer) =
      (List.range (vis.length + 1 + 1)).map (fun i : ℕ => radius - (i : ℚ) * (H + S)) := by
  have hr : (List.range (vis.length + 1 + 1)).map
        (fun i : ℕ => radius - (i : ℚ) * (H + S)) =
      (List.range (vis.length + 1)).map (fun i : ℕ => radius - (i : ℚ) * (H + S)) ++
        [radius - ((vis.length + 1 : ℕ) : ℚ) * (H + S)] := by
    rw [List.range_succ, List.map_append]
    simp only [List.map_cons, List.map_nil]
  rw [List.map_append, bands_outer_one, hr]
  congr 1
  simp only [List.map_cons, List.map_nil]
  rw [regularBands_snd]
  push_cast
  ring_nf



theorem foundVisible_none : foundVisible none = false := rfl

theorem foundVisible_some (t : Track) : foundVisible (some t) = t.visible := rfl

/-- C5: for every track list (with at most one track of each GC type, as a
genome has), the band height is
`clamp(outerRadius/(count+2), MIN_TRACK_HEIGHT, MAX_TRACK_HEIGHT)` where
`count` counts visible non-GC tracks, plus one if the GC-content track is
visible, plus one if any GC-skew track is visible; successive band outer
radii walk from `outerRadius` inward by exactly
`trackHeight + TRACK_SPACING` per rendered band; and the bands come in the
fixed order: non-GC tracks in list order, then GC content, then the single
merged GC-skew band. -/
theorem C5_track_height_and_band_walk (cfg : RenderConfig) (radius : ℚ)
    (tracks : List Track)
    (hGC : (tracks.filter fun t => t.type == "gc_content").length ≤ 1)
    (hSP : (tracks.filter fun t => t.type == "gc_skew_plus").length ≤ 1)
    (hSM : (tracks.filter fun t => t.type == "gc_skew_minus").length ≤ 1) :
    (renderBands cfg radius tracks).2 =
      min cfg.MAX_TRACK_HEIGHT (max cfg.MIN_TRACK_HEIGHT (radius /
        (((((nonGCTracks tracks).filter fun t => t.visible).length
            + (if (tracks.any fun t => t.type == "gc_content" && t.visible) then 1 else 0)
            + (if (tracks.any fun t =>
                (t.type == "gc_skew_plus" || t.type == "gc_skew_minus") && t.visible)
              then 1 else 0) : ℕ) : ℚ) + 2))) ∧
    ((renderBands cfg radius tracks).1).map Band.outer =
      (List.range ((renderBands cfg radius tracks).1).length).map
        (fun i : ℕ => radius - (i : ℚ) *
          ((renderBands cfg radius tracks).2 + cfg.TRACK_SPACING)) ∧
    ((renderBands cfg radius tracks).1).map Band.kind =
      ((nonGCTracks tracks).filter fun t => t.visible).map BandKind.regular
        ++ (match findTrack tracks "gc_content" with
            | some t => if t.visible then [BandKind.gcContent t] else []
            | none => [])
        ++ (if (tracks.any fun t =>
              (t.type == "gc_skew_plus" || t.type == "gc_skew_minus") && t.visible)
            then [BandKind.gcSkewMerged] else []) := by
  have hgc := foundVisible_eq_any tracks "gc_content" hGC
  have hskew : (foundVisible (findTrack tracks "gc_skew_plus") ||
        foundVisible (findTrack tracks "gc_skew_minus")) =
      tracks.any fun t =>
        (t.type == "gc_skew_plus" || t.type == "gc_skew_minus") && t.visible := by
    rw [foundVisible_eq_any tracks "gc_skew_plus" hSP,
      foundVisible_eq_any tracks "gc_skew_minus" hSM, any_skew_split]
  have h2 : (renderBands cfg radius tracks).2 =
      calculateTrackHeight cfg radius
        (((nonGCTracks tracks).filter fun t => t.visible)).length
        (foundVisible (findTrack tracks "gc_content"))
        (foundVisible (findTrack tracks "gc_skew_plus") ||
          foundVisible (findTrack tracks "gc_skew_minus")) := rfl
  refine ⟨?_, ?_⟩
  · rw [h2, hgc, hskew]
    simp only [calculateTrackHeight]
  · rcases hfind : findTrack tracks "gc_content" with _ | t
    · cases hb : (foundVisible (findTrack tracks "gc_skew_plus") ||
          foundVisible (findTrack tracks "gc_skew_minus")) with
      | false =>
          have hbany : (tracks.any fun t =>
              (t.type == "gc_skew_plus" || t.type == "gc_skew_minus") && t.visible)
              = false := by
            rw [← hskew]
            exact hb
          have h1 : (renderBands cfg radius tracks).1 =
              (regularBands
                (calculateTrackHeight cfg radius
                  (((nonGCTracks tracks).filter fun t => t.visible)).length false false)
                cfg.TRACK_SPACING
                ((nonGCTracks tracks).filter fun t => t.visible) radius).1 := by
            simp [renderBands, hfind, hb, foundVisible_none, foundVisible_some]
          have h2c : (renderBands cfg radius tracks).2 =
              calculateTrackHeight cfg radius
                (((nonGCTracks tracks).filter fun t => t.visible)).length false false := by
            simp [h2, hfind, hb, foundVisible_none, foundVisible_some]
          rw [h1, h2c]
          constructor
          · rw [regularBands_fst_length]
            exact bands_outer_zero _ _ radius _
          · rw [regularBands_fst_kind]
            simp [hfind, hbany]
      | true =>
          have hbany : (tracks.any fun t =>
              (t.type == "gc_skew_plus" || t.type == "gc_skew_minus") && t.visible)
              = true := by
            rw [← hskew]
            exact hb
          have h1 : (renderBands cfg radius tracks).1 =
              (regularBands
                (calculateTrackHeight cfg radius
                  (((nonGCTracks tracks).filter fun t => t.visible)).length false true)
                cfg.TRACK_SPACING
                ((nonGCTracks tracks).filter fun t => t.visible) radius).1
              ++ [Band.mk BandKind.gcSkewMerged
                (regularBands
                  (calculateTrackHeight cfg radius
                    (((nonGCTracks tracks).filter fun t => t.visible)).length false true)
                  cfg.TRACK_SPACING
                  ((nonGCTracks tracks).filter fun t => t.visible) radius).2] := by
            simp [renderBands, hfind, hb, foundVisible_none, foundVisible_some]
          have h2c : (renderBands cfg radius tracks).2 =
              calculateTrackHeight cfg radius
                (((nonGCTracks tracks).filter fun t => t.visible)).length false true := by
            simp [h2, hfind, hb, foundVisible_none, foundVisible_some]
          rw [h1, h2c]
          constructor
          · simp only [List.length_append, regularBands_fst_length, List.length_singleton]
            exact bands_outer_one _ _ radius _ _
          · rw [List.map_append, regularBands_fst_kind]
            simp [hfind, hbany]
    · cases hv : t.visible with
      | false =>
          cases hb : (foundVisible (findTrack tracks "gc_skew_plus") ||
              foundVisible (findTrack tracks "gc_skew_minus")) with
          | false =>
              have hbany : (tracks.any fun t =>
                  (t.type == "gc_skew_plus" || t.type == "gc_skew_minus") && t.visible)
                  = false := by
                rw [← hskew]
                exact hb
              have h1 : (renderBands cfg radius tracks).1 =
                  (regularBands
                    (calculateTrackHeight cfg radius
                      (((nonGCTracks tracks).filter fun t => t.visible)).length false false)
                    cfg.TRACK_SPACING
                    ((nonGCTracks tracks).filter fun t => t.visible) radius).1 := by
                simp [renderBands, hfind, hb, hv, foundVisible_none, foundVisible_some]
              have h2c : (renderBands cfg radius tracks).2 =
                  calculateTrackHeight cfg radius
                    (((nonGCTracks tracks).filter fun t => t.visible)).length false false := by
                simp [h2, hfind, hb, hv, foundVisible_none, foundVisible_some]
              rw [h1, h2c]
              constructor
              · rw [regularBands_fst_length]
                exact bands_outer_zero _ _ radius _
              · rw [regularBands_fst_kind]
                simp [hfind, hv, hbany]
          | true =>
              have hbany : (tracks.any fun t =>
                  (t.type == "gc_skew_plus" || t.type == "gc_skew_minus") && t.visible)
                  = true := by
                rw [← hskew]
                exact hb
              have h1 : (renderBands cfg radius tracks).1 =
                  (regularBands
                    (calculateTrackHeight cfg radius
                      (((nonGCTracks tracks).filter fun t => t.visible)).length false true)
                    cfg.TRACK_SPACING
                    ((nonGCTracks tracks).filter fun t => t.visible) radius).1
                  ++ [Band.mk BandKind.gcSkewMerged
                    (regularBands
                      (calculateTrackHeight cfg radius
                        (((nonGCTracks tracks).filter fun t => t.visible)).length false true)
                      cfg.TRACK_SPACING
                      ((nonGCTracks tracks).filter fun t => t.visible) radius).2] := by
                simp [renderBands, hfind, hb, hv, foundVisible_none, foundVisible_some]
              have h2c : (renderBands cfg radius tracks).2 =
                  calculateTrackHeight cfg radius
                    (((nonGCTracks tracks).filter fun t => t.visible)).length false true := by
                simp [h2, hfind, hb, hv, foundVisible_none, foundVisible_some]
              rw [h1, h2c]
              constructor
              · simp only [List.length_append, regularBands_fst_length, List.length_singleton]
                exact bands_outer_one _ _ radius _ _
              · rw [List.map_append, regularBands_fst_kind]
                simp [hfind, hv, hbany]
      | true =>
          cases hb : (foundVisible (findTrack tracks "gc_skew_plus") ||
              foundVisible (findTrack tracks "gc_skew_minus")) with
          | false =>
              have hbany : (tracks.any fun t =>
                  (t.type == "gc_skew_plus" || t.type == "gc_skew_minus") && t.visible)
                  = false := by
                rw [← hskew]
                exact hb
              have h1 : (renderBands cfg radius tracks).1 =
                  (regularBands
                    (calculateTrackHeight cfg radius
                      (((nonGCTracks tracks).filter fun t => t.visible)).length true false)
                    cfg.TRACK_SPACING
                    ((nonGCTracks tracks).filter fun t => t.visible) radius).1
                  ++ [Band.mk (BandKind.gcContent t)
                    (regularBands
                      (calculateTrackHeight cfg radius
                        (((nonGCTracks tracks).filter fun t => t.visible)).length true false)
                      cfg.TRACK_SPACING
                      ((nonGCTracks tracks).filter fun t => t.visible) radius).2] := by
                simp [renderBands, hfind, hb, hv, foundVisible_none, foundVisible_some]
              have h2c : (renderBands cfg radius tracks).2 =
                  calculateTrackHeight cfg radius
                    (((nonGCTracks tracks).filter fun t => t.visible)).length true false := by
                simp [h2, hfind, hb, hv, foundVisible_none, foundVisible_some]
              rw [h1, h2c]
              constructor
              · simp only [List.length_append, regularBands_fst_length, List.length_singleton]
                exact bands_outer_one _ _ radius _ _
              · rw [List.map_append, regularBands_fst_kind]
                simp [hfind, hv, hbany]
          | true =>
              have hbany : (tracks.any fun t =>
                  (t.type == "gc_skew_plus" || t.type == "gc_skew_minus") && t.visible)
                  = true := by
                rw [← hskew]
                exact hb
              have h1 : (renderBands cfg radius tracks).1 =
                  ((regularBands
                    (calculateTrackHeight cfg radius
                      (((nonGCTracks tracks).filter fun t => t.visible)).length true true)
                    cfg.TRACK_SPACING
                    ((nonGCTracks tracks).filter fun t => t.visible) radius).1
                  ++ [Band.mk (BandKind.gcContent t)
                    (regularBands
                      (calculateTrackHeight cfg radius
                        (((nonGCTracks tracks).filter fun t => t.visible)).length true true)
                      cfg.TRACK_SPACING
                      ((nonGCTracks tracks).filter fun t => t.visible) radius).2])
                  ++ [Band.mk BandKind.gcSkewMerged
                    ((regularBands
                      (calculateTrackHeight cfg radius
                        (((nonGCTracks tracks).filter fun t => t.visible)).length true true)
                      cfg.TRACK_SPACING
                      ((nonGCTracks tracks).filter fun t => t.visible) radius).2
                      - calculateTrackHeight cfg radius
                        (((nonGCTracks tracks).filter fun t => t.visible)).length true true
                      - cfg.TRACK_SPACING)] := by
                simp [renderBands, hfind, hb, hv, foundVisible_none, foundVisible_some]
              have h2c : (renderBands cfg radius tracks).2 =
                  calculateTrackHeight cfg radius
                    (((nonGCTracks tracks).filter fun t => t.visible)).length true true := by
                simp [h2, hfind, hb, hv, foundVisible_none, foundVisible_some]
              rw [h1, h2c]
              constructor
              · simp only [List.length_append, regularBands_fst_length, List.length_singleton]
                exact bands_outer_two _ _ radius _ _ _
              · rw [List.map_append, List.map_append, regularBands_fst_kind]
                simp [hfind, hv, hbany]

theorem C5_track_height_and_band_walk_witness :
    (renderBands specConfig 300 layoutWitnessTracks).2 =
      min specConfig.MAX_TRACK_HEIGHT (max specConfig.MIN_TRACK_HEIGHT (300 /
        (((((nonGCTracks layoutWitnessTracks).filter fun t => t.visible).length
            + (if (layoutWitnessTracks.any fun t =>
                t.type == "gc_content" && t.visible) then 1 else 0)
            + (if (layoutWitnessTracks.any fun t =>
                (t.type == "gc_skew_plus" || t.type == "gc_skew_minus") && t.visible)
              then 1 else 0) : ℕ) : ℚ) + 2))) ∧
    ((renderBands specConfig 300 layoutWitnessTracks).1).map Band.outer =
      (List.range ((renderBands specConfig 300 layoutWitnessTracks).1).length).map
        (fun i : ℕ => 300 - (i : ℚ) *
          ((renderBands specConfig 300 layoutWitnessTracks).2 + specConfig.TRACK_SPACING)) ∧
    ((renderBands specConfig 300 layoutWitnessTracks).1).map Band.kind =
      ((nonGCTracks layoutWitnessTracks).filter fun t => t.visible).map BandKind.regular
        ++ (match findTrack layoutWitnessTracks "gc_content" with
            | some t => if t.visible then [BandKind.gcContent t] else []
            | none => [])
        ++ (if (layoutWitnessTracks.any fun t =>
              (t.type == "gc_skew_plus" || t.type == "gc_skew_minus") && t.visible)
            then [BandKind.gcSkewMerged] else []) :=
  C5_track_height_and_band_walk specConfig 300 layoutWitnessTracks
    (by decide) (by decide) (by decide)

end GffViewer
